import Mathlib

/-!
# Verification of the EasyEmulatorScriptsEditor task engine

A shallow embedding of `src/core/task_engine.py` (class `TaskEngine`) and
proofs about it.  Python dictionaries become association lists, Python
`time.time()` readings become an explicit rational clock threaded through the
retry loop, and the external collaborators (device transport, vision backend,
and Python's builtin `eval`) are modelled as explicit environment parameters:
the engine's own control logic is translated line by line, while the effects
it merely invokes are oracles supplied by each theorem.
-/

namespace TaskEngine

/-- A Python float as the engine can store one: `_parse_value` (line 541)
returns `float(value)` for any string float literal — including `"nan"`,
`"inf"` and `"-inf"` — and `float` is also in the eval allow-list.  A
finite double is modelled by its exact rational value; `nan` and the two
infinities are separate cases because their equality behaviour differs
from every finite value's. -/
inductive PyFloat where
  | nan
  | inf
  | ninf
  | num (q : ℚ)
deriving DecidableEq, Repr

/-- A Python value as stored in `TaskEngine.variables`: the engine stores
integers, floats, strings, booleans and `None` in the variable
dictionary. -/
inductive PyVal where
  | int (n : ℤ)
  | float (x : PyFloat)
  | str (s : String)
  | bool (b : Bool)
  | none
deriving DecidableEq, Repr

/-- Python truthiness of a float: `bool(float('nan'))` and the infinities
are `True`; only `0.0` is falsy. -/
def PyFloat.truthy : PyFloat → Bool
  | .nan => true
  | .inf => true
  | .ninf => true
  | .num q => q != 0

/-- Python truthiness (`if not eval(cond, ...)` in `_evaluate_expression`):
`0`, `0.0`, `""`, `False` and `None` are falsy, everything else is
truthy. -/
def PyVal.truthy : PyVal → Bool
  | .int n => n != 0
  | .float x => x.truthy
  | .str s => s ≠ ""
  | .bool b => b
  | .none => false

/-- Python `==` between two floats: `nan` equals nothing — not even
itself —, each infinity equals itself, finite values compare as their
exact rationals. -/
def PyFloat.pyEq : PyFloat → PyFloat → Bool
  | .inf, .inf => true
  | .ninf, .ninf => true
  | .num q, .num r => q == r
  | _, _ => false

/-- Python `==` on the stored values.  `bool` is a subclass of `int` in
Python, so `True == 1`; numbers compare across `int`/`float`/`bool` by
value (`5 == 5.0`, `True == 1.0`), with `nan` unequal to everything;
values of different non-numeric kinds are unequal, and `None` equals only
`None`. -/
def PyVal.pyEq : PyVal → PyVal → Bool
  | .int a, .int b => a == b
  | .str a, .str b => a == b
  | .bool a, .bool b => a == b
  | .int a, .bool b => a == (if b then 1 else 0)
  | .bool a, .int b => (if a then (1 : ℤ) else 0) == b
  | .float x, .float y => x.pyEq y
  | .int a, .float y => PyFloat.pyEq (.num a) y
  | .float x, .int b => x.pyEq (.num b)
  | .bool a, .float y => PyFloat.pyEq (.num (if a then 1 else 0)) y
  | .float x, .bool b => x.pyEq (.num (if b then 1 else 0))
  | .none, .none => true
  | _, _ => false

/-- The `self.variables` dictionary: an association list from names to
values (first binding wins on lookup, updates replace in place). -/
abbrev VarStore := List (String × PyVal)

/-- `self.variables.get(name)`: first binding for `name`, if any. -/
def lookupVar (vs : VarStore) (name : String) : Option PyVal :=
  (vs.find? (fun p => p.1 = name)).map (·.2)

/-- `self.variables[name] = value`: replace the existing binding in place,
or append a fresh one. -/
def updateVar : VarStore → String → PyVal → VarStore
  | [], name, v => [(name, v)]
  | (k, w) :: rest, name, v =>
      if k = name then (name, v) :: rest else (k, w) :: updateVar rest name v

/-- The mutable engine state the claims are about: the variable dictionary
`self.variables`, the watch set `self.watched_variables`, and the watch-log
lines printed so far by `_set_variable` (each recorded as the
`(name, value)` pair of the printed message). -/
structure EngineState where
  vars : VarStore
  watched : List String
  watchLog : List (String × PyVal)
deriving DecidableEq, Repr

/-- `TaskEngine._set_variable` (task_engine.py lines 496-509):
read `old_value = self.variables.get(name)` (`None` when absent), return
unchanged when `old_value == value`, otherwise write the binding and, when
the name is watched, print one watch-log line. -/
def setVariable (st : EngineState) (name : String) (value : PyVal) : EngineState :=
  let oldValue := (lookupVar st.vars name).getD .none
  if oldValue.pyEq value then st
  else
    let st' := { st with vars := updateVar st.vars name value }
    if name ∈ st'.watched then
      { st' with watchLog := st'.watchLog ++ [(name, value)] }
    else st'

/-- A concrete engine state used to evaluate the theorems on explicit
inputs: one stored variable `x = 5`, which is watched, empty watch log. -/
def exState : EngineState := ⟨[("x", .int 5)], ["x"], []⟩

/-! ## Expression evaluator (`_evaluate_expression` / `_execute_action`)

The string pipeline of `_evaluate_expression` (task_engine.py lines
417-449): `.replace("&&", " and ").replace("||", " or ").replace("!", " not ")`,
then `re.sub(r'(?<![=<>!])=(?![=])', '==', ...)`, then `.split(';')` with
`.strip()` per clause.  Python's builtin `eval` of a single clause is an
external collaborator, modelled as an oracle that receives the clause and
the local scope and returns a value together with the (possibly mutated)
scope, or an error. -/

/-- Python `str.replace(p1p2, rep)` for a two-character pattern: leftmost,
non-overlapping occurrences. -/
def replace2 (p1 p2 : Char) (rep : List Char) : List Char → List Char
  | [] => []
  | [c] => [c]
  | c :: d :: cs =>
      if c = p1 ∧ d = p2 then rep ++ replace2 p1 p2 rep cs
      else c :: replace2 p1 p2 rep (d :: cs)

/-- Python `str.replace(p, rep)` for a one-character pattern. -/
def replace1 (p : Char) (rep : List Char) : List Char → List Char
  | [] => []
  | c :: cs => if c = p then rep ++ replace1 p rep cs else c :: replace1 p rep cs

/-- The negative lookbehind `(?<![=<>!])` of the substitution regex: the
previous character of the input (if any) is none of `=`, `<`, `>`, `!`. -/
def lookbehindOk : Option Char → Bool
  | Option.none => true
  | Option.some p => !(p == '=' || p == '<' || p == '>' || p == '!')

/-- The negative lookahead `(?![=])`: the next character (if any) is not
`=`. -/
def lookaheadOk : List Char → Bool
  | [] => true
  | d :: _ => d != '='

/-- `re.sub(r'(?<![=<>!])=(?![=])', '==', s)`: every `=` of the input whose
original neighbours satisfy the lookbehind/lookahead is replaced by `==`.
`prev` is the original character preceding the current position. -/
def eqSubAux (prev : Option Char) : List Char → List Char
  | [] => []
  | c :: cs =>
      if c = '=' ∧ lookbehindOk prev = true ∧ lookaheadOk cs = true then
        '=' :: '=' :: eqSubAux (Option.some c) cs
      else c :: eqSubAux (Option.some c) cs

/-- The full operator rewriting of `_evaluate_expression` (lines 421-425),
in source order: `&&`, then `||`, then `!`, then the `=` regex. -/
def rewriteChars (s : List Char) : List Char :=
  eqSubAux Option.none
    (replace1 '!' " not ".toList
      (replace2 '|' '|' " or ".toList
        (replace2 '&' '&' " and ".toList s)))

/-- String-level view of the rewriting pipeline. -/
def rewriteString (s : String) : String := String.mk (rewriteChars s.toList)

/-- Python `str.split(';')`: `""` splits to `[""]`, separators are not kept. -/
def splitSemi : List Char → List (List Char)
  | [] => [[]]
  | c :: cs =>
      if c = ';' then [] :: splitSemi cs
      else
        match splitSemi cs with
        | [] => [[c]]
        | p :: ps => (c :: p) :: ps

/-- The characters removed by Python `str.strip()` (ASCII whitespace). -/
def pyWs (c : Char) : Bool :=
  c == ' ' || c == '\t' || c == '\n' || c == '\r' || c == '\x0b' || c == '\x0c'

/-- Python `str.strip()`. -/
def pyStrip (s : List Char) : List Char :=
  ((s.dropWhile pyWs).reverse.dropWhile pyWs).reverse

/-- The external `eval(cond, safe_globals, local_scope)` collaborator: maps
a clause string and the local scope to a value and the scope after
evaluation (an expression may mutate the scope it is given), or an
evaluation error. -/
def PyEval : Type := String → VarStore → Except String (PyVal × VarStore)

/-- The clause loop of `_evaluate_expression` (lines 439-449): empty
clauses are skipped, an erroring clause makes the whole condition false
(the `except` branch), a falsy clause makes it false, otherwise continue
with the scope the clause left behind. -/
def evalClauses (oracle : PyEval) : VarStore → List String → Bool
  | _, [] => true
  | scope, c :: cs =>
      if c = "" then evalClauses oracle scope cs
      else
        match oracle c scope with
        | .error _ => false
        | .ok (v, scope') => if v.truthy then evalClauses oracle scope' cs else false

/-- The clause list `_evaluate_expression` computes from its input: rewrite
the operators, split on `;`, strip each clause. -/
def conditionClauses (expression : String) : List String :=
  (splitSemi (rewriteChars expression.toList)).map (fun p => String.mk (pyStrip p))

/-- `TaskEngine._evaluate_expression` (lines 417-449) as a state
transformer: the local scope starts as a copy of `self.variables`, the
clause loop runs over the rewritten, split, stripped clauses, and the
engine state is returned unchanged (the method never writes
`self.variables`). -/
def evaluateExpression (oracle : PyEval) (st : EngineState) (expression : String) :
    Bool × EngineState :=
  (evalClauses oracle st.vars (conditionClauses expression), st)

/-- The clause loop restricted to a prefix of the clause list: returns the
scope left after evaluating the prefix when every clause of the prefix was
skipped (empty) or truthy, `none` when the prefix already errored or went
false. -/
def evalClausesPrefix (oracle : PyEval) : VarStore → List String → Option VarStore
  | scope, [] => Option.some scope
  | scope, c :: cs =>
      if c = "" then evalClausesPrefix oracle scope cs
      else
        match oracle c scope with
        | .error _ => Option.none
        | .ok (v, scope') =>
            if v.truthy then evalClausesPrefix oracle scope' cs else Option.none

/-- An oracle that errors on every clause, used to evaluate theorems at
concrete inputs. -/
def failingOracle : PyEval := fun _ _ => .error "NameError"

/-! ## Tasks and the jump map (`_build_jump_map`) -/

/-- A task record: the dictionary fields of a task that the engine's
control logic reads, with the defaults `task.get(...)` supplies for absent
keys.  Type-specific parameters of handlers that only do device/vision
I/O are not needed by the control logic and live in the environment. -/
structure Task where
  type : Option String := Option.none
  description : Option String := Option.none
  pre_condition : Option String := Option.none
  post_action : Option String := Option.none
  on_fail_action : Option String := Option.none
  wait_for_success : Bool := false
  continue_on_fail : Bool := false
  retries : Option Nat := Option.none
  timeout : Option ℚ := Option.none
  judge_only : Bool := false
  targets : Option (List String) := Option.none
  threshold : Option ℚ := Option.none
deriving DecidableEq, Repr

instance : Inhabited Task := ⟨{}⟩

/-- `task.get("type") == "LOOP"`. -/
def isLoopTask (t : Task) : Bool := t.type = Option.some "LOOP"

/-- `task.get("type") == "END_LOOP"`. -/
def isEndTask (t : Task) : Bool := t.type = Option.some "END_LOOP"

/-- Lookup in the jump-map dictionary (keys are distinct; newest entries
are at the front, so first match is Python's dict lookup). -/
def jmLookup : List (Nat × Nat) → Nat → Option Nat
  | [], _ => Option.none
  | (k, v) :: m, a => if k = a then Option.some v else jmLookup m a

/-- The scan of `TaskEngine._build_jump_map` (lines 47-64): push each LOOP
index, pop on each END_LOOP and record both directions, fail on an
unmatched END_LOOP, and fail after the scan when the stack is non-empty
(Python's `stack[-1]`, the most recently pushed index, names the offender). -/
def buildJumpMapAux : List Nat → List (Nat × Nat) → Nat → List Task →
    Except String (List (Nat × Nat))
  | stack, m, _, [] =>
      match stack with
      | [] => Except.ok m
      | top :: _ => Except.error s!"任务 {top}: LOOP 没有匹配的 END_LOOP"
  | stack, m, i, t :: ts =>
      if isLoopTask t then buildJumpMapAux (i :: stack) m (i + 1) ts
      else if isEndTask t then
        match stack with
        | [] => Except.error s!"任务 {i}: 找到没有匹配的 LOOP 的 END_LOOP"
        | loopIndex :: rest =>
            buildJumpMapAux rest ((i, loopIndex) :: (loopIndex, i) :: m) (i + 1) ts
      else buildJumpMapAux stack m (i + 1) ts

/-- `TaskEngine._build_jump_map`. -/
def buildJumpMap (tasks : List Task) : Except String (List (Nat × Nat)) :=
  buildJumpMapAux [] [] 0 tasks

/-- Well-nestedness of a sequence, as a depth-counting scan: starting from
`d` open loops, every END_LOOP closes an open LOOP and the scan ends with
zero open loops. -/
def nestOk : Nat → List Task → Bool
  | d, [] => d = 0
  | d, t :: ts =>
      if isLoopTask t then nestOk (d + 1) ts
      else if isEndTask t then
        match d with
        | 0 => false
        | d' + 1 => nestOk d' ts
      else nestOk d ts

/-- The jump map is its own inverse wherever it is defined. -/
def partialInvOn (m : List (Nat × Nat)) : Prop :=
  ∀ a b, jmLookup m a = Option.some b → jmLookup m b = Option.some a

/-- A concrete well-nested sequence: `[LOOP, wait, END_LOOP]`. -/
def exTasks : List Task :=
  [{ type := Option.some "LOOP" }, { type := Option.some "wait" },
   { type := Option.some "END_LOOP" }]

/-! ## Assignment actions (`_execute_action`, lines 451-480) -/

/-- Python `str.isidentifier()` (restricted to ASCII identifiers). -/
def pyIsIdentifier (s : String) : Bool :=
  match s.toList with
  | [] => false
  | c :: cs => (c.isAlpha || c == '_') && cs.all (fun d => d.isAlphanum || d == '_')

/-- `stmt.split('=', 1)`: split at the first occurrence of `sep`, `none`
when `sep` does not occur (Python's `'=' not in stmt` test). -/
def splitFirst (sep : Char) : List Char → Option (List Char × List Char)
  | [] => Option.none
  | c :: cs =>
      if c = sep then Option.some ([], cs)
      else (splitFirst sep cs).map (fun p => (c :: p.1, p.2))

/-- The statement loop of `_execute_action`: skip empty statements, fail on
a statement without `=` or with an invalid target name, evaluate the
right-hand side in the local scope, write the result through
`_set_variable` and into the local scope, and propagate any error (the
statements already executed keep their effects). -/
def executeActionAux (oracle : PyEval) : EngineState → VarStore → List String →
    EngineState × Except String Unit
  | st, _, [] => (st, Except.ok ())
  | st, scope, stmt :: rest =>
      if stmt = "" then executeActionAux oracle st scope rest
      else
        match splitFirst '=' stmt.toList with
        | Option.none => (st, Except.error s!"无效的赋值表达式: {stmt}")
        | Option.some (lhs, rhs) =>
            let varName := String.mk (pyStrip lhs)
            let expr := String.mk (pyStrip rhs)
            if pyIsIdentifier varName = false then
              (st, Except.error s!"无效的变量名: {varName}")
            else
              match oracle expr scope with
              | Except.error e => (st, Except.error e)
              | Except.ok (value, scope') =>
                  executeActionAux oracle (setVariable st varName value)
                    (updateVar scope' varName value) rest

/-- `TaskEngine._execute_action`: split on `;`, strip, and run the
statements left to right against a fresh copy of the variables. -/
def executeAction (oracle : PyEval) (st : EngineState) (action : String) :
    EngineState × Except String Unit :=
  executeActionAux oracle st st.vars
    ((splitSemi action.toList).map (fun p => String.mk (pyStrip p)))

/-! ## Retry/timeout controller (`_execute_task`, lines 137-231) -/

/-- Engine configuration loaded from settings (lines 37-40), with the
defaults the constructor supplies. -/
structure EngineConfig where
  maxRetries : Nat := 3
  retryDelay : ℚ := 1
  timeout : ℚ := 30
  taskDelay : ℚ := 1 / 100
deriving Repr

/-- `retries = task.get("retries", self.max_retries)` (line 150). -/
def effRetries (cfg : EngineConfig) (task : Task) : Nat :=
  task.retries.getD cfg.maxRetries

/-- The external world a task execution interacts with: the
`self.is_running` flag as observed at each attempt's check, the
device/vision handlers (everything `_handle_*` does outside the engine
state), the wall-clock time each attempt consumes, and Python `eval`. -/
structure ExecEnv where
  isRunning : Nat → Bool
  io : Task → Nat → EngineState → EngineState × Except String Unit
  attemptDur : Nat → ℚ
  oracle : PyEval

/-- The dispatch switch of `_execute_task` (lines 177-196).  `wait` only
sleeps, `LOOP`/`END_LOOP` fall through every branch, and an unknown type is
logged and treated as success; the remaining handlers perform device or
vision I/O (or, for `set_variable`, parse task parameters the control-flow
claims never read) and are delegated to the environment. -/
def dispatchCore (env : ExecEnv) (task : Task) (k : Nat) (st : EngineState) :
    EngineState × Except String Unit :=
  match task.type with
  | Option.some "screenshot" => env.io task k st
  | Option.some "click" => env.io task k st
  | Option.some "long_press" => env.io task k st
  | Option.some "wait" => (st, Except.ok ())
  | Option.some "set_variable" => env.io task k st
  | Option.some "swipe" => env.io task k st
  | Option.some "ocr" => env.io task k st
  | Option.some "find_and_click_one" => env.io task k st
  | Option.some "restart_app" => env.io task k st
  | Option.some "LOOP" => (st, Except.ok ())
  | Option.some "END_LOOP" => (st, Except.ok ())
  | _ => (st, Except.ok ())

/-- Dispatch plus the `post_action` step (lines 177-203): a failing
post-action becomes the attempt's exception, wrapped in
`执行后置动作失败: ...`.  The third component counts dispatcher
invocations (1 when the action ran). -/
def tryDispatchPost (env : ExecEnv) (task : Task) (a : Nat) (st : EngineState) :
    EngineState × Except String Unit × Nat :=
  match dispatchCore env task a st with
  | (st1, Except.error e) => (st1, Except.error e, 1)
  | (st1, Except.ok _) =>
      match task.post_action with
      | Option.none => (st1, Except.ok (), 1)
      | Option.some act =>
          match executeAction env.oracle st1 act with
          | (st2, Except.ok _) => (st2, Except.ok (), 1)
          | (st2, Except.error e) => (st2, Except.error s!"执行后置动作失败: {e}", 1)

/-- One attempt's `try:` block (lines 171-207): the deadline check comes
first and raises `TimeoutError` *inside* the `try`, before the action is
invoked; otherwise dispatch and post-action run. -/
def tryBody (env : ExecEnv) (task : Task) (timeout : Option ℚ) (startTime : ℚ)
    (a : Nat) (now : ℚ) (st : EngineState) : EngineState × Except String Unit × Nat :=
  match timeout with
  | Option.some T =>
      if now - startTime > T then (st, Except.error s!"任务执行超时({T}秒)", 0)
      else tryDispatchPost env task a st
  | Option.none => tryDispatchPost env task a st

/-- How `_execute_task` returns to `run`: normally (success, a skipped
pre-condition, or the user-stop early return at line 168 — all plain
`return`s in Python), by raising, or with the fuel of this embedding
exhausted (the Python loop still running). -/
inductive TaskOutcome where
  | success
  | stoppedByUser
  | preSkipped
  | raised (msg : String)
  | fuelOut
deriving DecidableEq, Repr

/-- Result of one `_execute_task` call: how it returned, the engine state,
how many times the dispatcher was invoked, whether `on_fail_action` was
executed, and the clock on return. -/
structure ExecResult where
  outcome : TaskOutcome
  state : EngineState
  invocations : Nat
  onFailRan : Bool
  now : ℚ
deriving DecidableEq, Repr

/-- Line 224's aggregated failure message. -/
def aggFailMsg (retries : Nat) (e : String) : String :=
  s!"任务执行失败(重试{retries}次后): {e}"

/-- Line 222's message when `on_fail_action` itself failed: the secondary
failure is appended to (not replacing) the aggregated original message. -/
def aggFailMsg2 (retries : Nat) (e ae : String) : String :=
  aggFailMsg retries e ++ s!"\n并且执行失败时动作也失败了: {ae}"

/-- The `while True` attempt loop of `_execute_task` (lines 163-231), with
explicit fuel: check the stop flag, run the `try:` body, and on a caught
exception either retry (blocking tasks always retry; non-blocking tasks
with attempts left retry after logging), or run `on_fail_action` and raise
the aggregated failure.  Every retry sleeps `retry_delay`; the clock
advances by the attempt's duration plus that sleep. -/
def execAttempts (env : ExecEnv) (cfg : EngineConfig) (task : Task)
    (timeout : Option ℚ) (startTime : ℚ) :
    Nat → Nat → ℚ → EngineState → Nat → ExecResult
  | 0, _, now, st, inv => ⟨TaskOutcome.fuelOut, st, inv, false, now⟩
  | fuel + 1, attempt, now, st, inv =>
      if env.isRunning (attempt + 1) then
        match tryBody env task timeout startTime (attempt + 1) now st with
        | (st1, Except.ok _, used) => ⟨TaskOutcome.success, st1, inv + used, false, now⟩
        | (st1, Except.error e, used) =>
            if task.wait_for_success then
              execAttempts env cfg task timeout startTime fuel (attempt + 1)
                (now + env.attemptDur (attempt + 1) + cfg.retryDelay) st1 (inv + used)
            else if effRetries cfg task ≤ attempt + 1 then
              match task.on_fail_action with
              | Option.some fa =>
                  match executeAction env.oracle st1 fa with
                  | (st3, Except.error ae) =>
                      ⟨TaskOutcome.raised (aggFailMsg2 (effRetries cfg task) e ae),
                        st3, inv + used, true, now⟩
                  | (st3, Except.ok _) =>
                      ⟨TaskOutcome.raised (aggFailMsg (effRetries cfg task) e),
                        st3, inv + used, true, now⟩
              | Option.none =>
                  ⟨TaskOutcome.raised (aggFailMsg (effRetries cfg task) e),
                    st1, inv + used, false, now⟩
            else
              execAttempts env cfg task timeout startTime fuel (attempt + 1)
                (now + env.attemptDur (attempt + 1) + cfg.retryDelay) st1 (inv + used)
      else ⟨TaskOutcome.stoppedByUser, st, inv, false, now⟩

/-- `TaskEngine._execute_task`: evaluate the pre-condition (a false one
skips the task, line 144), fix the effective timeout (blocking tasks use
only an explicit task timeout, non-blocking tasks fall back to the engine
default — lines 152-158), then run the attempt loop from `attempt = 0`
with `start_time = time.time()`. -/
def executeTask (env : ExecEnv) (cfg : EngineConfig) (task : Task)
    (startTime : ℚ) (fuel : Nat) (st : EngineState) : ExecResult :=
  if (match task.pre_condition with
      | Option.some p => (evaluateExpression env.oracle st p).1
      | Option.none => true) then
    execAttempts env cfg task
      (if task.wait_for_success then task.timeout
       else Option.some (task.timeout.getD cfg.timeout))
      startTime fuel 0 startTime st 0
  else ⟨TaskOutcome.preSkipped, st, 0, false, startTime⟩

/-- An environment in which every dispatched action fails, time is never
stopped from outside, each attempt takes 3 seconds, and every `eval`
errors. -/
def alwaysFailEnv : ExecEnv :=
  { isRunning := fun _ => true
    io := fun _ _ st => (st, Except.error "模拟动作失败")
    attemptDur := fun _ => 3
    oracle := failingOracle }

/-- The blocking task of the claim: `wait_for_success = true`,
explicit `timeout = 2`. -/
def blockingTask : Task :=
  { type := Option.some "click", wait_for_success := true, timeout := Option.some 2 }

/-- The always-failing non-blocking task of the claim: `retries = 3`, a
large explicit timeout so the deadline is never reached, and an
`on_fail_action` (which the always-erroring oracle makes fail too). -/
def c4Task : Task :=
  { type := Option.some "click", retries := Option.some 3,
    timeout := Option.some 1000, on_fail_action := Option.some "x = 1" }

/-- A task whose pre-condition is whitespace and semicolons only. -/
def c10Task : Task :=
  { type := Option.some "wait", pre_condition := Option.some "  ;  ; " }

/-! ## `_handle_find_and_click_one` (lines 333-385) -/

/-- The collaborators of the handler.  `Image` is the abstract type of
loaded images; `findTemplate` receives the image processor's current
threshold explicitly because `ImageProcessor.find_template` reads the
mutable `self.threshold`. -/
structure FacEnv (Image : Type) where
  screenshot : Bool × String
  loadImage : String → Option Image
  findTemplate : ℚ → Image → Image → Option (ℤ × ℤ)
  tap : ℤ × ℤ → Bool × String

/-- Observable result of one handler call: the raised error or success,
the image processor's threshold after the handler returns, and every
`adb.tap` invocation made. -/
structure FacResult where
  outcome : Except String Unit
  threshold : ℚ
  taps : List (ℤ × ℤ)
deriving Repr

/-- The target loop inside the `try:` (lines 357-381): a target whose
image fails to load is skipped with a warning; on the first match either
the click is skipped (`judge_only`) or the tap runs — a failed tap raises;
when no target matched, `NotFound` is raised.  `thr` is the threshold the
handler installed for this task. -/
def facLoop {Image : Type} (env : FacEnv Image) (judgeOnly : Bool) (source : Image)
    (thr : ℚ) : List String → Except String Unit × List (ℤ × ℤ)
  | [] => (Except.error s!"未能在屏幕上找到任何一个目标图片 (置信度: {thr})。", [])
  | path :: rest =>
      match env.loadImage path with
      | Option.none => facLoop env judgeOnly source thr rest
      | Option.some template =>
          match env.findTemplate thr source template with
          | Option.none => facLoop env judgeOnly source thr rest
          | Option.some pos =>
              if judgeOnly then (Except.ok (), [])
              else
                match env.tap pos with
                | (true, _) => (Except.ok (), [pos])
                | (false, msg) => (Except.error s!"点击目标 {path} 失败: {msg}", [pos])

/-- The screenshot the handler takes (`os.path.join(self.base_dir, ...)`
abstracted to the file name). -/
def tempScreenFindOnePath : String := "temp_screen_find_one.png"

/-- `TaskEngine._handle_find_and_click_one`: parameter check, screenshot,
image load (all three before the threshold is touched), then save
`original_threshold`, install the per-task override, run the target loop
inside `try:`, and restore the saved threshold in `finally:` — the
restoration is the last write on every exit path, so the resulting
threshold is the saved original whatever the loop did. -/
def handleFindAndClickOne {Image : Type} (env : FacEnv Image) (task : Task)
    (threshold0 : ℚ) : FacResult :=
  match task.targets with
  | Option.none =>
      ⟨Except.error "find_and_click_one 任务需要一个 targets 列表参数。", threshold0, []⟩
  | Option.some paths =>
      if paths = [] then
        ⟨Except.error "find_and_click_one 任务需要一个 targets 列表参数。", threshold0, []⟩
      else
        match env.screenshot with
        | (false, msg) =>
            ⟨Except.error s!"为 find_and_click_one 任务截图失败: {msg}", threshold0, []⟩
        | (true, _) =>
            match env.loadImage tempScreenFindOnePath with
            | Option.none =>
                ⟨Except.error "为 find_and_click_one 加载截图失败。", threshold0, []⟩
            | Option.some source =>
                ⟨(facLoop env task.judge_only source (task.threshold.getD threshold0) paths).1,
                  threshold0,
                  (facLoop env task.judge_only source (task.threshold.getD threshold0) paths).2⟩

/-- Does some target of the list load and match under threshold `thr`? -/
def anyTargetMatches {Image : Type} (env : FacEnv Image) (source : Image) (thr : ℚ)
    (paths : List String) : Bool :=
  paths.any (fun p =>
    match env.loadImage p with
    | Option.none => false
    | Option.some t => (env.findTemplate thr source t).isSome)

/-- A concrete environment to evaluate the handler: the screenshot
succeeds, every image loads, the (second) template matches at `(1, 2)`. -/
def exFacEnv : FacEnv Unit :=
  { screenshot := (true, "")
    loadImage := fun _ => Option.some ()
    findTemplate := fun _ _ _ => Option.some (1, 2)
    tap := fun _ => (true, "") }

/-- A `find_and_click_one` task overriding the threshold, judge-only. -/
def c7Task : Task :=
  { type := Option.some "find_and_click_one", judge_only := true,
    targets := Option.some ["a.png", "b.png"], threshold := Option.some (1 / 2) }

/-! ## The execution loop (`run`, lines 66-125) -/

/-- How a run ends: the instruction pointer reached the end, the running
flag went false (both return normally in Python), an unrecovered error
propagated, or the fuel of this embedding ran out. -/
inductive RunOutcome where
  | completed
  | stopped
  | failed (msg : String)
  | fuelOut
deriving DecidableEq, Repr

/-- Result of a run: the outcome, the final engine state, and the
instruction-pointer values at which `_execute_task` was invoked (in
order). -/
structure RunResult where
  outcome : RunOutcome
  state : EngineState
  execTrace : List Nat
deriving DecidableEq, Repr

/-- Line 90: a LOOP task `continue`s (skipping its body) exactly when it
has a `pre_condition` that evaluates false; otherwise it falls through to
`_execute_task`. -/
def loopSkips (oracle : PyEval) (st : EngineState) (task : Task) : Bool :=
  isLoopTask task &&
    (match task.pre_condition with
     | Option.some p => !(evaluateExpression oracle st p).1
     | Option.none => false)

/-- Line 96: an END_LOOP jumps back (continuing the loop) when it has no
`pre_condition` or its condition evaluates false; a true condition exits
the loop. -/
def endLoopContinues (oracle : PyEval) (st : EngineState) (task : Task) : Bool :=
  match task.pre_condition with
  | Option.none => true
  | Option.some p => !(evaluateExpression oracle st p).1

/-- The `while i < total_tasks and self.is_running and is_running_callable()`
loop of `run`: `runFlag iter` is the conjunction of the two running checks
at the `iter`-th loop test.  A skipping LOOP or a continuing END_LOOP
moves the pointer through the jump map (a missing key would be a Python
`KeyError`); an exiting END_LOOP advances; every other task goes through
`_execute_task` (whose attempt loop gets `taskFuel`), after which a raised
error fails the run unless `continue_on_fail` is set, and the loop sleeps
`task_delay` (when positive) and advances. -/
def runLoop (env : ExecEnv) (cfg : EngineConfig) (runFlag : Nat → Bool)
    (tasks : List Task) (jm : List (Nat × Nat)) (taskFuel : Nat) :
    Nat → Nat → Nat → ℚ → EngineState → List Nat → RunResult
  | 0, _, _, _, st, trace => ⟨RunOutcome.fuelOut, st, trace⟩
  | fuel + 1, iter, i, now, st, trace =>
      if i < tasks.length then
        if runFlag iter then
          if loopSkips env.oracle st (tasks.getD i {}) then
            match jmLookup jm i with
            | Option.none => ⟨RunOutcome.failed "KeyError: jump_map", st, trace⟩
            | Option.some j =>
                runLoop env cfg runFlag tasks jm taskFuel fuel (iter + 1) (j + 1) now st trace
          else if isEndTask (tasks.getD i {}) then
            if endLoopContinues env.oracle st (tasks.getD i {}) then
              match jmLookup jm i with
              | Option.none => ⟨RunOutcome.failed "KeyError: jump_map", st, trace⟩
              | Option.some j =>
                  runLoop env cfg runFlag tasks jm taskFuel fuel (iter + 1) (j + 1) now st trace
            else
              runLoop env cfg runFlag tasks jm taskFuel fuel (iter + 1) (i + 1) now st trace
          else
            match executeTask env cfg (tasks.getD i {}) now taskFuel st with
            | r =>
                match r.outcome with
                | TaskOutcome.raised msg =>
                    if (tasks.getD i {}).continue_on_fail then
                      runLoop env cfg runFlag tasks jm taskFuel fuel (iter + 1) (i + 1)
                        (if cfg.taskDelay > 0 then r.now + cfg.taskDelay else r.now)
                        r.state (trace ++ [i])
                    else ⟨RunOutcome.failed msg, r.state, trace ++ [i]⟩
                | TaskOutcome.fuelOut => ⟨RunOutcome.fuelOut, r.state, trace ++ [i]⟩
                | _ =>
                    runLoop env cfg runFlag tasks jm taskFuel fuel (iter + 1) (i + 1)
                      (if cfg.taskDelay > 0 then r.now + cfg.taskDelay else r.now)
                      r.state (trace ++ [i])
        else ⟨RunOutcome.stopped, st, trace⟩
      else ⟨RunOutcome.completed, st, trace⟩

/-- `TaskEngine.run`: build the jump map (a `ValueError` there fails the
run as a structure error), then drive the loop from pointer 0. -/
def runEngine (env : ExecEnv) (cfg : EngineConfig) (runFlag : Nat → Bool)
    (tasks : List Task) (taskFuel fuel : Nat) (st : EngineState) : RunResult :=
  match buildJumpMap tasks with
  | Except.error e => ⟨RunOutcome.failed s!"任务结构错误: {e}", st, []⟩
  | Except.ok jm => runLoop env cfg runFlag tasks jm taskFuel fuel 0 0 0 st []

/-- Python `eval` restricted to the three expressions the loop scenario
uses: the comparisons `i<3` and `i>=3` and the arithmetic `i + 1`, each
reading the stored integer `i`. -/
def scenarioOracle : PyEval := fun e scope =>
  match lookupVar scope "i" with
  | Option.some (PyVal.int n) =>
      if e = "i<3" then Except.ok (PyVal.bool (decide (n < 3)), scope)
      else if e = "i>=3" then Except.ok (PyVal.bool (decide (3 ≤ n)), scope)
      else if e = "i + 1" then Except.ok (PyVal.int (n + 1), scope)
      else Except.error "unsupported expression"
  | _ => Except.error "NameError: name i is not defined"

/-- Environment for the loop scenario: never stopped, no I/O handler is
ever dispatched, attempts take no time. -/
def scenEnv : ExecEnv :=
  { isRunning := fun _ => true
    io := fun _ _ st => (st, Except.error "不应被调用")
    attemptDur := fun _ => 0
    oracle := scenarioOracle }

/-- Scenario configuration: defaults, with no inter-task delay. -/
def scenCfg : EngineConfig :=
  { maxRetries := 3, retryDelay := 1, timeout := 30, taskDelay := 0 }

/-- `LOOP(pre_condition="i<3")`. -/
def loopTask : Task := { type := Option.some "LOOP", pre_condition := Option.some "i<3" }

/-- The body task, whose `post_action` assigns `i = i + 1`. -/
def bodyTask : Task :=
  { type := Option.some "wait", post_action := Option.some "i = i + 1" }

/-- `END_LOOP(pre_condition="i>=3")`. -/
def endTask : Task :=
  { type := Option.some "END_LOOP", pre_condition := Option.some "i>=3" }

/-- The scenario sequence. -/
def scenarioTasks : List Task := [loopTask, bodyTask, endTask]

/-- Engine state with `i` bound to `n`. -/
def scenState (n : ℤ) : EngineState := ⟨[("i", PyVal.int n)], [], []⟩

/-! ## Theorems -/

/-- C8 (code-bug evidence): the engine can store `float('nan')` —
`_parse_value` (line 541) parses the string `"nan"` to it, and `float` is
in the eval allow-list — and Python `==` makes `nan` unequal to itself,
so the unchanged check `old_value == value` at line 503 never recognises
a repeated NaN: two consecutive `_set_variable` calls with the *same* NaN
value on a watched variable both update the mapping and both print a
watch-log line, where the claim allows at most one log line and no side
effect at all on the second call. -/
theorem setVariable_nan_relogs :
    (PyVal.float PyFloat.nan).pyEq (PyVal.float PyFloat.nan) = false ∧
    (setVariable (setVariable exState "x" (PyVal.float PyFloat.nan)) "x"
        (PyVal.float PyFloat.nan)).watchLog =
      [("x", PyVal.float PyFloat.nan), ("x", PyVal.float PyFloat.nan)] ∧
    setVariable exState "x" (PyVal.float PyFloat.nan) ≠ exState :=
  ⟨rfl, rfl, by decide⟩

/-- C2 (code-bug evidence): the bare-`=` rewriting works as specified —
`"count = 5"` is rewritten to `"count == 5"` and therefore produces exactly
the clause list of `"count == 5"` — and `>=`, `<=`, `==` are left
untouched; but `!=` is NOT left untouched: the earlier
`.replace("!", " not ")` (line 421) turns `!=` into ` not =`, which the
`=`-regex then rewrites to ` not ==`, an expression Python cannot parse, so
every `!=` clause raises and the condition degrades to false. -/
theorem rewrite_bare_eq_but_neq_broken :
    rewriteString "count = 5" = "count == 5" ∧
    conditionClauses "count = 5" = conditionClauses "count == 5" ∧
    rewriteString "count >= 5" = "count >= 5" ∧
    rewriteString "count <= 5" = "count <= 5" ∧
    rewriteString "count == 5" = "count == 5" ∧
    rewriteString "count != 5" = "count  not == 5" :=
  ⟨rfl, rfl, rfl, rfl, rfl, rfl⟩

theorem evalClauses_error_after_prefix (oracle : PyEval) (pre : List String)
    (c : String) (post : List String) :
    ∀ scope scope' msg, evalClausesPrefix oracle scope pre = Option.some scope' →
      c ≠ "" → oracle c scope' = .error msg →
      evalClauses oracle scope (pre ++ c :: post) = false := by
  induction pre with
  | nil =>
      intro scope scope' msg hpre hc herr
      simp only [evalClausesPrefix, Option.some.injEq] at hpre
      subst hpre
      simp [evalClauses, hc, herr]
  | cons a pre ih =>
      intro scope scope' msg hpre hc herr
      simp only [evalClausesPrefix] at hpre
      by_cases ha : a = ""
      · simp only [ha, if_pos rfl] at hpre
        simpa [evalClauses, ha] using ih scope scope' msg hpre hc herr
      · simp only [ha, if_neg ha] at hpre
        cases hor : oracle a scope with
        | error e => rw [hor] at hpre; simp at hpre
        | ok p =>
            obtain ⟨v, scope2⟩ := p
            rw [hor] at hpre
            simp only at hpre
            by_cases hv : v.truthy = true
            · rw [if_pos hv] at hpre
              simp only [List.cons_append, evalClauses, if_neg ha, hor, hv, if_true]
              exact ih scope2 scope' msg hpre hc herr
            · rw [if_neg hv] at hpre; simp at hpre

/-- C6: if any non-empty `;`-separated clause of the (rewritten) condition
raises an evaluation error when reached — all clauses before it skipped or
truthy — the whole condition evaluates to false.  `_evaluate_expression`
catches the error internally (lines 445-448); in this embedding that is
visible in its total type `Bool × EngineState`: it never propagates an
error to its caller. -/
theorem evaluateExpression_clause_error_false (oracle : PyEval) (st : EngineState)
    (e : String) (pre : List String) (c : String) (post : List String)
    (scope' : VarStore) (msg : String)
    (hcl : conditionClauses e = pre ++ c :: post) (hc : c ≠ "")
    (hpre : evalClausesPrefix oracle st.vars pre = Option.some scope')
    (herr : oracle c scope' = .error msg) :
    (evaluateExpression oracle st e).1 = false := by
  unfold evaluateExpression
  rw [hcl]
  exact evalClauses_error_after_prefix oracle pre c post st.vars scope' msg hpre hc herr

theorem evaluateExpression_clause_error_false_witness :
    (evaluateExpression failingOracle exState "boom").1 = false :=
  evaluateExpression_clause_error_false failingOracle exState "boom" [] "boom" []
    exState.vars "NameError" rfl (by decide) rfl rfl

/-- C9: condition evaluation leaves the variable store unchanged — the
method evaluates clauses against `local_scope = self.variables.copy()`
(line 428) and never writes `self.variables`, whatever the clauses do to
the scope they are handed. -/
theorem evaluateExpression_preserves_variables (oracle : PyEval) (st : EngineState)
    (e : String) : (evaluateExpression oracle st e).2.vars = st.vars := rfl

theorem replace2_id (p1 p2 : Char) (rep : List Char) :
    ∀ l : List Char, (∀ c ∈ l, c ≠ p1) → replace2 p1 p2 rep l = l := by
  intro l
  induction l with
  | nil => intro _; rfl
  | cons c cs ih =>
      intro h
      cases cs with
      | nil => rfl
      | cons d ds =>
          have hc : c ≠ p1 := h c (by simp)
          simp only [replace2]
          rw [if_neg (fun hand => hc hand.1),
            ih (fun x hx => h x (List.mem_cons_of_mem c hx))]

theorem replace1_id (p : Char) (rep : List Char) :
    ∀ l : List Char, (∀ c ∈ l, c ≠ p) → replace1 p rep l = l := by
  intro l
  induction l with
  | nil => intro _; rfl
  | cons c cs ih =>
      intro h
      have hc : c ≠ p := h c (by simp)
      simp only [replace1, if_neg hc]
      rw [ih (fun x hx => h x (List.mem_cons_of_mem c hx))]

theorem eqSubAux_id : ∀ (l : List Char), (∀ c ∈ l, c ≠ '=') →
    ∀ prev, eqSubAux prev l = l := by
  intro l
  induction l with
  | nil => intro _ _; rfl
  | cons c cs ih =>
      intro h prev
      have hc : c ≠ '=' := h c (by simp)
      simp only [eqSubAux]
      rw [if_neg (fun hand => hc hand.1),
        ih (fun x hx => h x (List.mem_cons_of_mem c hx))]

theorem rewriteChars_id (l : List Char)
    (h : ∀ c ∈ l, c ≠ '&' ∧ c ≠ '|' ∧ c ≠ '!' ∧ c ≠ '=') : rewriteChars l = l := by
  unfold rewriteChars
  rw [replace2_id '&' '&' _ l (fun c hc => (h c hc).1),
      replace2_id '|' '|' _ l (fun c hc => (h c hc).2.1),
      replace1_id '!' _ l (fun c hc => (h c hc).2.2.1),
      eqSubAux_id l (fun c hc => (h c hc).2.2.2)]

theorem splitSemi_chars (P : Char → Prop) :
    ∀ l : List Char, (∀ c ∈ l, P c) →
      ∀ p ∈ splitSemi l, ∀ c ∈ p, P c ∧ c ≠ ';' := by
  intro l
  induction l with
  | nil =>
      intro _ p hp c hc
      simp only [splitSemi, List.mem_singleton] at hp
      subst hp
      simp at hc
  | cons a as ih =>
      intro h p hp c hc
      by_cases ha : a = ';'
      · simp only [splitSemi, if_pos ha] at hp
        rcases List.mem_cons.mp hp with h1 | h2
        · subst h1; simp at hc
        · exact ih (fun x hx => h x (List.mem_cons_of_mem a hx)) p h2 c hc
      · simp only [splitSemi, if_neg ha] at hp
        cases hsp : splitSemi as with
        | nil =>
            rw [hsp] at hp
            simp only [List.mem_singleton] at hp
            subst hp
            simp only [List.mem_singleton] at hc
            subst hc
            exact ⟨h c (by simp), ha⟩
        | cons q qs =>
            rw [hsp] at hp
            rcases List.mem_cons.mp hp with h1 | h2
            · subst h1
              rcases List.mem_cons.mp hc with h3 | h4
              · subst h3; exact ⟨h c (by simp), ha⟩
              · have hq : q ∈ splitSemi as := by rw [hsp]; simp
                exact ih (fun x hx => h x (List.mem_cons_of_mem a hx)) q hq c h4
            · have hq : p ∈ splitSemi as := by rw [hsp]; simp [h2]
              exact ih (fun x hx => h x (List.mem_cons_of_mem a hx)) p hq c hc

theorem pyStrip_all_ws (p : List Char) (h : ∀ c ∈ p, pyWs c = true) :
    pyStrip p = [] := by
  unfold pyStrip
  have h1 : p.dropWhile pyWs = [] := by
    induction p with
    | nil => rfl
    | cons c cs ih =>
        rw [List.dropWhile_cons_of_pos (h c (by simp))]
        exact ih (fun x hx => h x (List.mem_cons_of_mem c hx))
  rw [h1]
  rfl

theorem evalClauses_all_empty (oracle : PyEval) :
    ∀ cl : List String, (∀ c ∈ cl, c = "") → ∀ scope, evalClauses oracle scope cl = true := by
  intro cl
  induction cl with
  | nil => intro _ _; rfl
  | cons c cs ih =>
      intro h scope
      have hc : c = "" := h c (by simp)
      simp only [evalClauses, if_pos hc]
      exact ih (fun x hx => h x (List.mem_cons_of_mem c hx)) scope

/-- A condition string made only of whitespace and semicolons yields only
empty clauses, and the conjunction over zero (non-skipped) clauses is true. -/
theorem emptyish_condition_evaluates_true (oracle : PyEval) (st : EngineState)
    (e : String) (h : ∀ c ∈ e.toList, c = ';' ∨ pyWs c = true) :
    (evaluateExpression oracle st e).1 = true := by
  unfold evaluateExpression conditionClauses
  have hid : rewriteChars e.toList = e.toList := by
    refine rewriteChars_id e.toList (fun c hc => ?_)
    rcases h c hc with h1 | h2
    · subst h1; refine ⟨by decide, by decide, by decide, by decide⟩
    · refine ⟨?_, ?_, ?_, ?_⟩ <;> (intro he; subst he; exact absurd h2 (by decide))
  rw [hid]
  refine evalClauses_all_empty oracle _ (fun c hc => ?_) st.vars
  simp only [List.mem_map] at hc
  obtain ⟨p, hp, hpc⟩ := hc
  have hchars := splitSemi_chars (fun c => c = ';' ∨ pyWs c = true) e.toList h p hp
  have hws : ∀ c ∈ p, pyWs c = true := by
    intro c hcp
    rcases hchars c hcp with ⟨h1 | h1, h2⟩
    · exact absurd h1 h2
    · exact h1
  rw [← hpc, pyStrip_all_ws p hws]

theorem jmLookup_mem (m : List (Nat × Nat)) :
    ∀ a b, jmLookup m a = Option.some b → (a, b) ∈ m := by
  induction m with
  | nil => intro a b h; simp [jmLookup] at h
  | cons p rest ih =>
      intro a b h
      obtain ⟨k, v⟩ := p
      simp only [jmLookup] at h
      by_cases hk : k = a
      · rw [if_pos hk] at h
        obtain rfl := Option.some.inj h
        subst hk
        exact List.mem_cons_self _ _
      · rw [if_neg hk] at h
        exact List.mem_cons_of_mem _ (ih a b h)

theorem jmLookup_none_of_keys_lt (m : List (Nat × Nat)) (i : Nat)
    (h : ∀ p ∈ m, p.1 < i) : jmLookup m i = Option.none := by
  cases hl : jmLookup m i with
  | none => rfl
  | some b =>
      have := h _ (jmLookup_mem m i b hl)
      omega

theorem buildJumpMapAux_cons (stack : List Nat) (m : List (Nat × Nat)) (i : Nat)
    (t : Task) (ts : List Task) :
    buildJumpMapAux stack m i (t :: ts) =
      if isLoopTask t then buildJumpMapAux (i :: stack) m (i + 1) ts
      else if isEndTask t then
        match stack with
        | [] => Except.error s!"任务 {i}: 找到没有匹配的 LOOP 的 END_LOOP"
        | loopIndex :: rest =>
            buildJumpMapAux rest ((i, loopIndex) :: (loopIndex, i) :: m) (i + 1) ts
      else buildJumpMapAux stack m (i + 1) ts := rfl

theorem buildJumpMapAux_spec (ts : List Task) :
    ∀ (i0 : Nat) (stack : List Nat) (m : List (Nat × Nat)),
      (∀ a ∈ stack, a < i0) →
      stack.Nodup →
      (∀ p ∈ m, p.1 < i0 ∧ p.2 < i0) →
      (∀ a ∈ stack, jmLookup m a = Option.none) →
      partialInvOn m →
      nestOk stack.length ts = true →
      ∃ mo, buildJumpMapAux stack m i0 ts = Except.ok mo ∧
        (∀ a b, jmLookup m a = Option.some b → jmLookup mo a = Option.some b) ∧
        (∀ a ∈ stack, ∃ b, jmLookup mo a = Option.some b) ∧
        (∀ k (hk : k < ts.length), (isLoopTask ts[k] = true ∨ isEndTask ts[k] = true) →
          ∃ b, jmLookup mo (i0 + k) = Option.some b) ∧
        partialInvOn mo := by
  induction ts with
  | nil =>
      intro i0 stack m hslt hnd hmlt hdisj hinv hnest
      have hs0 : stack = [] := by
        have : stack.length = 0 := by simpa [nestOk] using hnest
        exact List.length_eq_zero.mp this
      subst hs0
      refine ⟨m, rfl, fun a b h => h, ?_, ?_, hinv⟩
      · intro a ha; simp at ha
      · intro k hk; simp at hk
  | cons t ts ih =>
      intro i0 stack m hslt hnd hmlt hdisj hinv hnest
      by_cases hL : isLoopTask t = true
      · -- t is a LOOP: push its index
        have hnest' : nestOk (i0 :: stack).length ts = true := by
          simpa [nestOk, hL, List.length_cons] using hnest
        obtain ⟨mo, heq, hpres, hstk, hcov, hinvo⟩ :=
          ih (i0 + 1) (i0 :: stack) m
            (by
              intro a ha
              rcases List.mem_cons.mp ha with rfl | ha
              · omega
              · exact Nat.lt_succ_of_lt (hslt a ha))
            (by
              refine List.nodup_cons.mpr ⟨?_, hnd⟩
              intro hmem
              exact absurd (hslt i0 hmem) (lt_irrefl i0))
            (fun p hp => ⟨Nat.lt_succ_of_lt (hmlt p hp).1, Nat.lt_succ_of_lt (hmlt p hp).2⟩)
            (by
              intro a ha
              rcases List.mem_cons.mp ha with rfl | ha
              · exact jmLookup_none_of_keys_lt m a (fun p hp => (hmlt p hp).1)
              · exact hdisj a ha)
            hinv hnest'
        refine ⟨mo, ?_, hpres, ?_, ?_, hinvo⟩
        · rw [buildJumpMapAux_cons, if_pos hL]; exact heq
        · intro a ha; exact hstk a (List.mem_cons_of_mem i0 ha)
        · intro k hk hctrl
          cases k with
          | zero =>
              obtain ⟨b, hb⟩ := hstk i0 (List.mem_cons_self i0 stack)
              exact ⟨b, by simpa using hb⟩
          | succ n =>
              have hn : n < ts.length := by simpa [List.length_cons] using hk
              have hctrl' : isLoopTask ts[n] = true ∨ isEndTask ts[n] = true := by
                simpa [List.getElem_cons_succ] using hctrl
              obtain ⟨b, hb⟩ := hcov n hn hctrl'
              refine ⟨b, ?_⟩
              have harith : i0 + (n + 1) = i0 + 1 + n := by omega
              rw [harith]; exact hb
      · by_cases hE : isEndTask t = true
        · -- t is an END_LOOP: pop and record the pair
          cases stack with
          | nil =>
              exfalso
              simp [nestOk, hL, hE] at hnest
          | cons l rest =>
              have hnest' : nestOk rest.length ts = true := by
                simpa [nestOk, hL, hE, List.length_cons] using hnest
              have hlm : jmLookup m l = Option.none :=
                hdisj l (List.mem_cons_self l rest)
              have hli0 : l < i0 := hslt l (List.mem_cons_self l rest)
              have hi0m : jmLookup m i0 = Option.none :=
                jmLookup_none_of_keys_lt m i0 (fun p hp => (hmlt p hp).1)
              have hrestlt : ∀ a ∈ rest, a < i0 := fun a ha =>
                hslt a (List.mem_cons_of_mem l ha)
              have hlnotrest : l ∉ rest := (List.nodup_cons.mp hnd).1
              have hndrest : rest.Nodup := (List.nodup_cons.mp hnd).2
              -- the extended map
              set m' : List (Nat × Nat) := (i0, l) :: (l, i0) :: m with hm'
              have hlook_i0 : jmLookup m' i0 = Option.some l := by
                simp [hm', jmLookup]
              have hlook_l : jmLookup m' l = Option.some i0 := by
                have : i0 ≠ l := by omega
                simp [hm', jmLookup, this, if_neg this]
              have hpres' : ∀ a b, jmLookup m a = Option.some b →
                  jmLookup m' a = Option.some b := by
                intro a b hab
                have hma := jmLookup_mem m a b hab
                have ha : a < i0 := (hmlt _ hma).1
                have hal : a ≠ l := by
                  intro he; rw [he, hlm] at hab; exact Option.noConfusion hab
                have hai : i0 ≠ a := by omega
                have hla : l ≠ a := fun he => hal he.symm
                simp [hm', jmLookup, if_neg hai, if_neg hla, hab]
              have hinv' : partialInvOn m' := by
                intro a b hab
                by_cases hai : i0 = a
                · subst hai
                  rw [hlook_i0] at hab
                  obtain rfl := Option.some.inj hab
                  exact hlook_l
                · by_cases hla : l = a
                  · subst hla
                    rw [hlook_l] at hab
                    obtain rfl := Option.some.inj hab
                    exact hlook_i0
                  · have hab' : jmLookup m a = Option.some b := by
                      simpa [hm', jmLookup, if_neg hai, if_neg hla] using hab
                    exact hpres' b a (hinv a b hab')
              obtain ⟨mo, heq, hpres2, hstk, hcov, hinvo⟩ :=
                ih (i0 + 1) rest m'
                  (fun a ha => Nat.lt_succ_of_lt (hrestlt a ha))
                  hndrest
                  (by
                    intro p hp
                    rcases List.mem_cons.mp hp with rfl | hp'
                    · exact ⟨by omega, by omega⟩
                    · rcases List.mem_cons.mp hp' with rfl | hp''
                      · exact ⟨by omega, by omega⟩
                      · exact ⟨Nat.lt_succ_of_lt (hmlt p hp'').1,
                          Nat.lt_succ_of_lt (hmlt p hp'').2⟩)
                  (by
                    intro a ha
                    have hane : i0 ≠ a := by
                      have := hrestlt a ha; omega
                    have hlne : l ≠ a := fun he => hlnotrest (he ▸ ha)
                    simp [hm', jmLookup, if_neg hane, if_neg hlne]
                    exact hdisj a (List.mem_cons_of_mem l ha))
                  hinv' hnest'
              refine ⟨mo, ?_, ?_, ?_, ?_, hinvo⟩
              · rw [buildJumpMapAux_cons, if_neg (by simp [hL]), if_pos hE]
                exact heq
              · intro a b hab; exact hpres2 a b (hpres' a b hab)
              · intro a ha
                rcases List.mem_cons.mp ha with rfl | ha'
                · exact ⟨i0, hpres2 a i0 hlook_l⟩
                · exact hstk a ha'
              · intro k hk hctrl
                cases k with
                | zero =>
                    refine ⟨l, ?_⟩
                    have : i0 + 0 = i0 := by omega
                    rw [this]
                    exact hpres2 i0 l hlook_i0
                | succ n =>
                    have hn : n < ts.length := by simpa [List.length_cons] using hk
                    have hctrl' : isLoopTask ts[n] = true ∨ isEndTask ts[n] = true := by
                      simpa [List.getElem_cons_succ] using hctrl
                    obtain ⟨b, hb⟩ := hcov n hn hctrl'
                    refine ⟨b, ?_⟩
                    have harith : i0 + (n + 1) = i0 + 1 + n := by omega
                    rw [harith]; exact hb
        · -- ordinary task: skip
          have hnest' : nestOk stack.length ts = true := by
            simpa [nestOk, hL, hE] using hnest
          obtain ⟨mo, heq, hpres, hstk, hcov, hinvo⟩ :=
            ih (i0 + 1) stack m
              (fun a ha => Nat.lt_succ_of_lt (hslt a ha))
              hnd
              (fun p hp => ⟨Nat.lt_succ_of_lt (hmlt p hp).1, Nat.lt_succ_of_lt (hmlt p hp).2⟩)
              hdisj hinv hnest'
          refine ⟨mo, ?_, hpres, hstk, ?_, hinvo⟩
          · rw [buildJumpMapAux_cons, if_neg (by simp [hL]), if_neg (by simp [hE])]
            exact heq
          · intro k hk hctrl
            cases k with
            | zero =>
                exfalso
                simp only [List.getElem_cons_zero] at hctrl
                rcases hctrl with h1 | h1
                · exact hL h1
                · exact hE h1
            | succ n =>
                have hn : n < ts.length := by simpa [List.length_cons] using hk
                have hctrl' : isLoopTask ts[n] = true ∨ isEndTask ts[n] = true := by
                  simpa [List.getElem_cons_succ] using hctrl
                obtain ⟨b, hb⟩ := hcov n hn hctrl'
                refine ⟨b, ?_⟩
                have harith : i0 + (n + 1) = i0 + 1 + n := by omega
                rw [harith]; exact hb

/-- C5: on every well-nested task sequence the jump-map construction
succeeds, and the returned map pairs every LOOP and END_LOOP index `i`
with a partner `j` such that looking up `j` gives back `i`
(`jump_map[jump_map[i]] == i`). -/
theorem buildJumpMap_involution (ts : List Task) (hw : nestOk 0 ts = true) :
    ∃ m, buildJumpMap ts = Except.ok m ∧
      ∀ k (hk : k < ts.length), (isLoopTask ts[k] = true ∨ isEndTask ts[k] = true) →
        ∃ j, jmLookup m k = Option.some j ∧ jmLookup m j = Option.some k := by
  obtain ⟨mo, heq, _, _, hcov, hinvo⟩ :=
    buildJumpMapAux_spec ts 0 [] []
      (by intro a ha; simp at ha)
      List.nodup_nil
      (by intro p hp; simp at hp)
      (by intro a ha; simp at ha)
      (by intro a b h; simp [jmLookup] at h)
      (by simpa using hw)
  refine ⟨mo, heq, ?_⟩
  intro k hk hctrl
  obtain ⟨j, hj⟩ := hcov k hk hctrl
  have hj' : jmLookup mo k = Option.some j := by simpa using hj
  exact ⟨j, hj', hinvo k j hj'⟩

theorem buildJumpMap_involution_witness :
    nestOk 0 exTasks = true ∧
    ∃ m, buildJumpMap exTasks = Except.ok m ∧
      jmLookup m 0 = Option.some 2 ∧ jmLookup m 2 = Option.some 0 := by
  refine ⟨by decide, ?_⟩
  obtain ⟨m, heq, hall⟩ := buildJumpMap_involution exTasks (by decide)
  have hm : m = [(2, 0), (0, 2)] := by
    have h2 : Except.ok (ε := String) m = Except.ok [(2, 0), (0, 2)] := by
      rw [← heq]; rfl
    exact Except.ok.inj h2
  subst hm
  exact ⟨_, heq, by decide, by decide⟩

theorem execAttempts_succ (env : ExecEnv) (cfg : EngineConfig) (task : Task)
    (timeout : Option ℚ) (startTime : ℚ) (fuel attempt : Nat) (now : ℚ)
    (st : EngineState) (inv : Nat) :
    execAttempts env cfg task timeout startTime (fuel + 1) attempt now st inv =
      if env.isRunning (attempt + 1) then
        match tryBody env task timeout startTime (attempt + 1) now st with
        | (st1, Except.ok _, used) => ⟨TaskOutcome.success, st1, inv + used, false, now⟩
        | (st1, Except.error e, used) =>
            if task.wait_for_success then
              execAttempts env cfg task timeout startTime fuel (attempt + 1)
                (now + env.attemptDur (attempt + 1) + cfg.retryDelay) st1 (inv + used)
            else if effRetries cfg task ≤ attempt + 1 then
              match task.on_fail_action with
              | Option.some fa =>
                  match executeAction env.oracle st1 fa with
                  | (st3, Except.error ae) =>
                      ⟨TaskOutcome.raised (aggFailMsg2 (effRetries cfg task) e ae),
                        st3, inv + used, true, now⟩
                  | (st3, Except.ok _) =>
                      ⟨TaskOutcome.raised (aggFailMsg (effRetries cfg task) e),
                        st3, inv + used, true, now⟩
              | Option.none =>
                  ⟨TaskOutcome.raised (aggFailMsg (effRetries cfg task) e),
                    st1, inv + used, false, now⟩
            else
              execAttempts env cfg task timeout startTime fuel (attempt + 1)
                (now + env.attemptDur (attempt + 1) + cfg.retryDelay) st1 (inv + used)
      else ⟨TaskOutcome.stoppedByUser, st, inv, false, now⟩ := rfl

/-- The attempt loop of a blocking task that never succeeds runs forever:
whatever the fuel, it is still running.  This covers the engine's behaviour
both before and after the deadline, because the deadline check's
`TimeoutError` is itself caught by the `except Exception` and retried. -/
theorem execAttempts_blocking_fuelOut (env : ExecEnv) (cfg : EngineConfig) (task : Task)
    (timeout : Option ℚ) (startTime : ℚ)
    (hblock : task.wait_for_success = true)
    (hrun : ∀ k, env.isRunning k = true)
    (hfail : ∀ a now st, (tryBody env task timeout startTime a now st).2.1 ≠ Except.ok ()) :
    ∀ fuel attempt now st inv,
      (execAttempts env cfg task timeout startTime fuel attempt now st inv).outcome =
        TaskOutcome.fuelOut := by
  intro fuel
  induction fuel with
  | zero => intro attempt now st inv; rfl
  | succ n ih =>
      intro attempt now st inv
      rw [execAttempts_succ, if_pos (hrun (attempt + 1))]
      cases htb : tryBody env task timeout startTime (attempt + 1) now st with
      | mk st1 p =>
          obtain ⟨r, used⟩ := p
          cases r with
          | ok u =>
              exfalso
              apply hfail (attempt + 1) now st
              rw [htb]
          | error e =>
              dsimp only
              rw [if_pos hblock]
              exact ih (attempt + 1) (now + env.attemptDur (attempt + 1) + cfg.retryDelay)
                st1 (inv + used)

/-- The attempt loop never produces the pre-condition-skip return: that
return happens before the loop is entered. -/
theorem execAttempts_ne_preSkipped (env : ExecEnv) (cfg : EngineConfig) (task : Task)
    (timeout : Option ℚ) (startTime : ℚ) :
    ∀ fuel attempt now st inv,
      (execAttempts env cfg task timeout startTime fuel attempt now st inv).outcome ≠
        TaskOutcome.preSkipped := by
  intro fuel
  induction fuel with
  | zero => intro attempt now st inv h; exact TaskOutcome.noConfusion h
  | succ n ih =>
      intro attempt now st inv
      rw [execAttempts_succ]
      by_cases hr : env.isRunning (attempt + 1) = true
      · rw [if_pos hr]
        cases htb : tryBody env task timeout startTime (attempt + 1) now st with
        | mk st1 p =>
            obtain ⟨r, used⟩ := p
            cases r with
            | ok u => intro h; exact TaskOutcome.noConfusion h
            | error e =>
                dsimp only
                by_cases hb : task.wait_for_success = true
                · rw [if_pos hb]; exact ih _ _ _ _
                · rw [if_neg hb]
                  by_cases hl : effRetries cfg task ≤ attempt + 1
                  · rw [if_pos hl]
                    cases task.on_fail_action with
                    | none => intro h; exact TaskOutcome.noConfusion h
                    | some fa =>
                        dsimp only
                        cases executeAction env.oracle st1 fa with
                        | mk st3 rf =>
                            cases rf with
                            | ok u => intro h; exact TaskOutcome.noConfusion h
                            | error ae => intro h; exact TaskOutcome.noConfusion h
                  · rw [if_neg hl]; exact ih _ _ _ _
      · rw [if_neg hr]
        intro h; exact TaskOutcome.noConfusion h

/-- C1 (code-bug evidence): a blocking task with an explicit `timeout = 2`
whose action fails on every attempt never raises `TimeoutError` — or
anything else.  With each attempt taking 3 seconds plus a 1-second retry
delay, every deadline check from the second attempt on is past the
deadline, yet for every fuel bound the attempt loop is still running: the
`raise TimeoutError` at line 174 is inside the `try:` whose blanket
`except Exception` (line 209) catches it, and blocking tasks always retry
after a caught exception. -/
theorem blocking_timeout_never_raised (n : Nat) :
    (executeTask alwaysFailEnv {} blockingTask 0 n exState).outcome =
      TaskOutcome.fuelOut := by
  have hfail : ∀ a now st,
      (tryBody alwaysFailEnv blockingTask (Option.some 2) 0 a now st).2.1 ≠
        Except.ok () := by
    intro a now st
    unfold tryBody
    dsimp only
    by_cases h : now - 0 > (2 : ℚ)
    · rw [if_pos h]
      intro hc
      exact Except.noConfusion hc
    · rw [if_neg h]
      intro hc
      exact Except.noConfusion hc
  have hmain := execAttempts_blocking_fuelOut alwaysFailEnv {} blockingTask
    (Option.some 2) 0 rfl (fun _ => rfl) hfail n 0 0 exState 0
  exact hmain

/-- When the deadline check passes and the dispatched action fails, the
`try:` body yields the action's error, the state the action left behind,
and one dispatcher invocation. -/
theorem tryBody_dispatch_error (env : ExecEnv) (task : Task) (T : ℚ) (startTime : ℚ)
    (a : Nat) (now : ℚ) (st : EngineState)
    (hd : ¬ now - startTime > T)
    (hfail : (dispatchCore env task a st).2 ≠ Except.ok ()) :
    ∃ e, tryBody env task (Option.some T) startTime a now st =
      ((dispatchCore env task a st).1, Except.error e, 1) := by
  unfold tryBody
  dsimp only
  rw [if_neg hd]
  unfold tryDispatchPost
  cases hdc : dispatchCore env task a st with
  | mk st1 r =>
      cases r with
      | ok u =>
          exfalso
          apply hfail
          rw [hdc]
      | error e =>
          exact ⟨e, rfl⟩

/-- A failed attempt of a non-blocking task with attempts still left:
the loop retries with the clock advanced and one more invocation. -/
theorem execAttempts_retry_step (env : ExecEnv) (cfg : EngineConfig) (task : Task)
    (T : ℚ) (startTime : ℚ) (fuel attempt : Nat) (now : ℚ) (st : EngineState) (inv : Nat)
    (hnb : task.wait_for_success = false)
    (hrun : env.isRunning (attempt + 1) = true)
    (hd : ¬ now - startTime > T)
    (hfail : (dispatchCore env task (attempt + 1) st).2 ≠ Except.ok ())
    (hnotlast : ¬ effRetries cfg task ≤ attempt + 1) :
    execAttempts env cfg task (Option.some T) startTime (fuel + 1) attempt now st inv =
      execAttempts env cfg task (Option.some T) startTime fuel (attempt + 1)
        (now + env.attemptDur (attempt + 1) + cfg.retryDelay)
        (dispatchCore env task (attempt + 1) st).1 (inv + 1) := by
  obtain ⟨e, htb⟩ := tryBody_dispatch_error env task T startTime (attempt + 1) now st hd hfail
  rw [execAttempts_succ, if_pos hrun, htb]
  dsimp only
  rw [if_neg (by rw [hnb]; exact Bool.false_ne_true), if_neg hnotlast]

/-- The exhausting attempt of a non-blocking task: `on_fail_action` (if
present) runs first, and the aggregated failure is raised — with the
secondary failure appended when the fail-action itself fails. -/
theorem execAttempts_last_step (env : ExecEnv) (cfg : EngineConfig) (task : Task)
    (T : ℚ) (startTime : ℚ) (fuel attempt : Nat) (now : ℚ) (st : EngineState) (inv : Nat)
    (hnb : task.wait_for_success = false)
    (hrun : env.isRunning (attempt + 1) = true)
    (hd : ¬ now - startTime > T)
    (hfail : (dispatchCore env task (attempt + 1) st).2 ≠ Except.ok ())
    (hlast : effRetries cfg task ≤ attempt + 1) :
    ∃ e, execAttempts env cfg task (Option.some T) startTime (fuel + 1) attempt now st inv =
      (match task.on_fail_action with
       | Option.some fa =>
          match executeAction env.oracle (dispatchCore env task (attempt + 1) st).1 fa with
          | (st3, Except.error ae) =>
              ⟨TaskOutcome.raised (aggFailMsg2 (effRetries cfg task) e ae),
                st3, inv + 1, true, now⟩
          | (st3, Except.ok _) =>
              ⟨TaskOutcome.raised (aggFailMsg (effRetries cfg task) e),
                st3, inv + 1, true, now⟩
       | Option.none =>
          ⟨TaskOutcome.raised (aggFailMsg (effRetries cfg task) e),
            (dispatchCore env task (attempt + 1) st).1, inv + 1, false, now⟩) := by
  obtain ⟨e, htb⟩ := tryBody_dispatch_error env task T startTime (attempt + 1) now st hd hfail
  refine ⟨e, ?_⟩
  rw [execAttempts_succ, if_pos hrun, htb]
  dsimp only
  rw [if_neg (by rw [hnb]; exact Bool.false_ne_true), if_pos hlast]

/-- C4: a non-blocking task with an effective retry budget of 3 whose
action fails on every attempt and whose deadline is never reached (the
three deadline checks all pass) invokes the action exactly 3 times; then
`on_fail_action` is executed exactly when it is present, and the raised
failure message is the aggregated original error — `aggFailMsg 3 e` —
with a secondary `on_fail_action` failure appended to it
(`aggFailMsg2 3 e ae` is by definition `aggFailMsg 3 e` followed by the
secondary-failure suffix), never replacing it. -/
theorem nonblocking_exhausts_three_retries (env : ExecEnv) (cfg : EngineConfig)
    (task : Task) (st : EngineState) (startTime : ℚ) (fuel : Nat)
    (hnb : task.wait_for_success = false)
    (hr : effRetries cfg task = 3)
    (hpre : task.pre_condition = Option.none)
    (hrun : ∀ k, env.isRunning k = true)
    (hfail : ∀ k st', (dispatchCore env task k st').2 ≠ Except.ok ())
    (hfuel : 3 ≤ fuel)
    (hd1 : ¬ startTime - startTime > task.timeout.getD cfg.timeout)
    (hd2 : ¬ startTime + env.attemptDur 1 + cfg.retryDelay - startTime >
        task.timeout.getD cfg.timeout)
    (hd3 : ¬ startTime + env.attemptDur 1 + cfg.retryDelay + env.attemptDur 2 +
        cfg.retryDelay - startTime > task.timeout.getD cfg.timeout) :
    (executeTask env cfg task startTime fuel st).invocations = 3 ∧
    (executeTask env cfg task startTime fuel st).onFailRan = task.on_fail_action.isSome ∧
    ∃ e, (executeTask env cfg task startTime fuel st).outcome =
          TaskOutcome.raised (aggFailMsg 3 e) ∨
        ∃ ae, (executeTask env cfg task startTime fuel st).outcome =
          TaskOutcome.raised (aggFailMsg2 3 e ae) := by
  obtain ⟨m, rfl⟩ : ∃ m, fuel = m + 3 := ⟨fuel - 3, by omega⟩
  have hexec : executeTask env cfg task startTime (m + 3) st =
      execAttempts env cfg task (Option.some (task.timeout.getD cfg.timeout))
        startTime (m + 3) 0 startTime st 0 := by
    unfold executeTask
    rw [hpre]
    dsimp only
    rw [if_pos rfl, if_neg (by rw [hnb]; exact Bool.false_ne_true)]
  have h1 : execAttempts env cfg task (Option.some (task.timeout.getD cfg.timeout))
      startTime (m + 3) 0 startTime st 0 =
      execAttempts env cfg task (Option.some (task.timeout.getD cfg.timeout))
        startTime (m + 2) 1 (startTime + env.attemptDur 1 + cfg.retryDelay)
        (dispatchCore env task 1 st).1 1 :=
    execAttempts_retry_step env cfg task (task.timeout.getD cfg.timeout)
      startTime (m + 2) 0 startTime st 0 hnb (hrun 1) hd1 (hfail 1 st) (by omega)
  have h2 : execAttempts env cfg task (Option.some (task.timeout.getD cfg.timeout))
      startTime (m + 2) 1 (startTime + env.attemptDur 1 + cfg.retryDelay)
      (dispatchCore env task 1 st).1 1 =
      execAttempts env cfg task (Option.some (task.timeout.getD cfg.timeout))
        startTime (m + 1) 2
        (startTime + env.attemptDur 1 + cfg.retryDelay + env.attemptDur 2 + cfg.retryDelay)
        (dispatchCore env task 2 (dispatchCore env task 1 st).1).1 2 :=
    execAttempts_retry_step env cfg task (task.timeout.getD cfg.timeout)
      startTime (m + 1) 1 (startTime + env.attemptDur 1 + cfg.retryDelay)
      (dispatchCore env task 1 st).1 1 hnb
      (hrun 2) hd2 (hfail 2 (dispatchCore env task 1 st).1) (by omega)
  obtain ⟨e, h3⟩ := execAttempts_last_step env cfg task (task.timeout.getD cfg.timeout)
    startTime m 2
    (startTime + env.attemptDur 1 + cfg.retryDelay + env.attemptDur 2 + cfg.retryDelay)
    (dispatchCore env task 2 (dispatchCore env task 1 st).1).1 2 hnb (hrun 3) hd3
    (hfail 3 (dispatchCore env task 2 (dispatchCore env task 1 st).1).1) (by omega)
  rw [hexec, h1, h2, h3, hr]
  cases hofa : task.on_fail_action with
  | none => exact ⟨rfl, rfl, e, Or.inl rfl⟩
  | some fa =>
      dsimp only
      cases hea : executeAction env.oracle
          (dispatchCore env task (2 + 1)
            (dispatchCore env task 2 (dispatchCore env task 1 st).1).1).1 fa with
      | mk st3 rf =>
          cases rf with
          | ok u => exact ⟨rfl, rfl, e, Or.inl rfl⟩
          | error ae => exact ⟨rfl, rfl, e, Or.inr ⟨ae, rfl⟩⟩

theorem nonblocking_exhausts_three_retries_witness :
    (executeTask alwaysFailEnv {} c4Task 0 7 exState).invocations = 3 ∧
    (executeTask alwaysFailEnv {} c4Task 0 7 exState).onFailRan = true :=
  ⟨(nonblocking_exhausts_three_retries alwaysFailEnv {} c4Task exState 0 7 rfl rfl rfl
      (fun _ => rfl) (fun k st' h => Except.noConfusion h) (by omega)
      (by norm_num [c4Task, alwaysFailEnv]) (by norm_num [c4Task, alwaysFailEnv])
      (by norm_num [c4Task, alwaysFailEnv])).1,
   (nonblocking_exhausts_three_retries alwaysFailEnv {} c4Task exState 0 7 rfl rfl rfl
      (fun _ => rfl) (fun k st' h => Except.noConfusion h) (by omega)
      (by norm_num [c4Task, alwaysFailEnv]) (by norm_num [c4Task, alwaysFailEnv])
      (by norm_num [c4Task, alwaysFailEnv])).2.1⟩

/-- C10: a condition string consisting only of whitespace and semicolons
evaluates to true — every clause strips to the empty string and is
skipped, and the conjunction over zero evaluated clauses holds — and a
task whose `pre_condition` is such a string is executed, not skipped:
`_execute_task` passes the pre-condition gate into the attempt loop, which
never produces the skip return. -/
theorem emptyish_precondition_executes (env : ExecEnv) (cfg : EngineConfig)
    (task : Task) (startTime : ℚ) (fuel : Nat) (st : EngineState) (w : String)
    (hw : ∀ c ∈ w.toList, c = ';' ∨ pyWs c = true)
    (hpre : task.pre_condition = Option.some w) :
    (evaluateExpression env.oracle st w).1 = true ∧
    (executeTask env cfg task startTime fuel st).outcome ≠ TaskOutcome.preSkipped := by
  have h1 := emptyish_condition_evaluates_true env.oracle st w hw
  refine ⟨h1, ?_⟩
  unfold executeTask
  rw [hpre]
  dsimp only
  rw [h1, if_pos rfl]
  exact execAttempts_ne_preSkipped env cfg task _ startTime fuel 0 startTime st 0

theorem emptyish_precondition_executes_witness :
    (evaluateExpression alwaysFailEnv.oracle exState "  ;  ; ").1 = true ∧
    (executeTask alwaysFailEnv {} c10Task 0 1 exState).outcome ≠
      TaskOutcome.preSkipped :=
  emptyish_precondition_executes alwaysFailEnv {} c10Task 0 1 exState "  ;  ; "
    (by decide) rfl

theorem facLoop_judge_only {Image : Type} (env : FacEnv Image) (source : Image)
    (thr : ℚ) : ∀ paths,
    (facLoop env true source thr paths).2 = [] ∧
      ((facLoop env true source thr paths).1 = Except.ok () ↔
        anyTargetMatches env source thr paths = true) := by
  intro paths
  induction paths with
  | nil =>
      refine ⟨rfl, ?_⟩
      simp only [facLoop, anyTargetMatches, List.any_nil]
      constructor
      · intro h; exact Except.noConfusion h
      · intro h; exact Bool.noConfusion h
  | cons p rest ih =>
      cases hload : env.loadImage p with
      | none =>
          have h1 : facLoop env true source thr (p :: rest) =
              facLoop env true source thr rest := by
            simp [facLoop, hload]
          have h2 : anyTargetMatches env source thr (p :: rest) =
              anyTargetMatches env source thr rest := by
            simp [anyTargetMatches, List.any_cons, hload]
          rw [h1, h2]; exact ih
      | some template =>
          cases hfind : env.findTemplate thr source template with
          | none =>
              have h1 : facLoop env true source thr (p :: rest) =
                  facLoop env true source thr rest := by
                simp [facLoop, hload, hfind]
              have h2 : anyTargetMatches env source thr (p :: rest) =
                  anyTargetMatches env source thr rest := by
                simp [anyTargetMatches, List.any_cons, hload, hfind]
              rw [h1, h2]; exact ih
          | some pos =>
              have h1 : facLoop env true source thr (p :: rest) =
                  (Except.ok (), []) := by
                simp [facLoop, hload, hfind]
              have h2 : anyTargetMatches env source thr (p :: rest) = true := by
                simp [anyTargetMatches, List.any_cons, hload, hfind]
              rw [h1, h2]
              exact ⟨rfl, by simp⟩

/-- C7: whatever the environment does, the handler's resulting threshold
is the pre-task value on every exit path (missing targets, failed
screenshot or load, match with or without tap, tap failure, nothing
found), even when the task overrides the threshold; with
`judge_only = true` no tap is ever invoked, and — once the screenshot and
source image are available — the outcome is success exactly when some
target matches under the overriding threshold. -/
theorem findAndClickOne_spec {Image : Type} (env : FacEnv Image) (task : Task)
    (threshold0 t : ℚ) (hov : task.threshold = Option.some t) :
    (handleFindAndClickOne env task threshold0).threshold = threshold0 ∧
    (task.judge_only = true → (handleFindAndClickOne env task threshold0).taps = []) ∧
    (task.judge_only = true →
      ∀ paths source, task.targets = Option.some paths → paths ≠ [] →
        env.screenshot = (true, "") → env.loadImage tempScreenFindOnePath = Option.some source →
        ((handleFindAndClickOne env task threshold0).outcome = Except.ok () ↔
          anyTargetMatches env source t paths = true)) := by
  refine ⟨?_, ?_, ?_⟩
  · unfold handleFindAndClickOne
    cases task.targets with
    | none => rfl
    | some paths =>
        dsimp only
        by_cases hp : paths = []
        · rw [if_pos hp]
        · rw [if_neg hp]
          cases env.screenshot with
          | mk ok msg =>
              cases ok
              · rfl
              · dsimp only
                cases env.loadImage tempScreenFindOnePath with
                | none => rfl
                | some source => rfl
  · intro hj
    unfold handleFindAndClickOne
    cases task.targets with
    | none => rfl
    | some paths =>
        dsimp only
        by_cases hp : paths = []
        · rw [if_pos hp]
        · rw [if_neg hp]
          cases env.screenshot with
          | mk ok msg =>
              cases ok
              · rfl
              · dsimp only
                cases env.loadImage tempScreenFindOnePath with
                | none => rfl
                | some source =>
                    dsimp only
                    rw [hj]
                    exact (facLoop_judge_only env source _ paths).1
  · intro hj paths source htg hp hscr hload
    unfold handleFindAndClickOne
    rw [htg]
    dsimp only
    rw [if_neg hp, hscr]
    dsimp only
    rw [hload]
    dsimp only
    rw [hj, hov]
    exact (facLoop_judge_only env source t paths).2

theorem findAndClickOne_spec_witness :
    (handleFindAndClickOne exFacEnv c7Task (4 / 5)).threshold = 4 / 5 ∧
    (handleFindAndClickOne exFacEnv c7Task (4 / 5)).taps = [] ∧
    ((handleFindAndClickOne exFacEnv c7Task (4 / 5)).outcome = Except.ok () ↔
      anyTargetMatches exFacEnv () (1 / 2) ["a.png", "b.png"] = true) :=
  ⟨(findAndClickOne_spec exFacEnv c7Task (4 / 5) (1 / 2) rfl).1,
   (findAndClickOne_spec exFacEnv c7Task (4 / 5) (1 / 2) rfl).2.1 rfl,
   (findAndClickOne_spec exFacEnv c7Task (4 / 5) (1 / 2) rfl).2.2 rfl
     ["a.png", "b.png"] () rfl (by simp) rfl rfl⟩

theorem runLoop_succ (env : ExecEnv) (cfg : EngineConfig) (runFlag : Nat → Bool)
    (tasks : List Task) (jm : List (Nat × Nat)) (taskFuel fuel iter i : Nat)
    (now : ℚ) (st : EngineState) (trace : List Nat) :
    runLoop env cfg runFlag tasks jm taskFuel (fuel + 1) iter i now st trace =
      (if i < tasks.length then
        if runFlag iter then
          if loopSkips env.oracle st (tasks.getD i {}) then
            match jmLookup jm i with
            | Option.none => ⟨RunOutcome.failed "KeyError: jump_map", st, trace⟩
            | Option.some j =>
                runLoop env cfg runFlag tasks jm taskFuel fuel (iter + 1) (j + 1) now st trace
          else if isEndTask (tasks.getD i {}) then
            if endLoopContinues env.oracle st (tasks.getD i {}) then
              match jmLookup jm i with
              | Option.none => ⟨RunOutcome.failed "KeyError: jump_map", st, trace⟩
              | Option.some j =>
                  runLoop env cfg runFlag tasks jm taskFuel fuel (iter + 1) (j + 1) now st trace
            else
              runLoop env cfg runFlag tasks jm taskFuel fuel (iter + 1) (i + 1) now st trace
          else
            match executeTask env cfg (tasks.getD i {}) now taskFuel st with
            | r =>
                match r.outcome with
                | TaskOutcome.raised msg =>
                    if (tasks.getD i {}).continue_on_fail then
                      runLoop env cfg runFlag tasks jm taskFuel fuel (iter + 1) (i + 1)
                        (if cfg.taskDelay > 0 then r.now + cfg.taskDelay else r.now)
                        r.state (trace ++ [i])
                    else ⟨RunOutcome.failed msg, r.state, trace ++ [i]⟩
                | TaskOutcome.fuelOut => ⟨RunOutcome.fuelOut, r.state, trace ++ [i]⟩
                | _ =>
                    runLoop env cfg runFlag tasks jm taskFuel fuel (iter + 1) (i + 1)
                      (if cfg.taskDelay > 0 then r.now + cfg.taskDelay else r.now)
                      r.state (trace ++ [i])
        else ⟨RunOutcome.stopped, st, trace⟩
      else ⟨RunOutcome.completed, st, trace⟩) := rfl

/-- An END_LOOP task is not a LOOP task, so it never takes the
LOOP-skip branch. -/
theorem loopSkips_of_end (oracle : PyEval) (st : EngineState) (t : Task)
    (h : isEndTask t = true) : loopSkips oracle st t = false := by
  have ht : t.type = Option.some "END_LOOP" := by
    simpa [isEndTask] using h
  simp [loopSkips, isLoopTask, ht]

theorem runLoop_exec_step (env : ExecEnv) (cfg : EngineConfig) (runFlag : Nat → Bool)
    (tasks : List Task) (jm : List (Nat × Nat)) (taskFuel fuel iter i : Nat)
    (now : ℚ) (st : EngineState) (trace : List Nat) (st1 : EngineState) (n1 : ℚ) (inv : Nat)
    (hi : i < tasks.length)
    (hflag : runFlag iter = true)
    (hns : loopSkips env.oracle st (tasks.getD i {}) = false)
    (hne : isEndTask (tasks.getD i {}) = false)
    (hexec : executeTask env cfg (tasks.getD i {}) now taskFuel st =
      ⟨TaskOutcome.success, st1, inv, false, n1⟩)
    (hdelay : ¬ cfg.taskDelay > 0) :
    runLoop env cfg runFlag tasks jm taskFuel (fuel + 1) iter i now st trace =
      runLoop env cfg runFlag tasks jm taskFuel fuel (iter + 1) (i + 1) n1 st1
        (trace ++ [i]) := by
  rw [runLoop_succ, if_pos hi, if_pos hflag,
    if_neg (by rw [hns]; exact Bool.false_ne_true),
    if_neg (by rw [hne]; exact Bool.false_ne_true), hexec]
  dsimp only
  rw [if_neg hdelay]

theorem runLoop_end_continue (env : ExecEnv) (cfg : EngineConfig) (runFlag : Nat → Bool)
    (tasks : List Task) (jm : List (Nat × Nat)) (taskFuel fuel iter i j : Nat)
    (now : ℚ) (st : EngineState) (trace : List Nat)
    (hi : i < tasks.length)
    (hflag : runFlag iter = true)
    (hend : isEndTask (tasks.getD i {}) = true)
    (hcont : endLoopContinues env.oracle st (tasks.getD i {}) = true)
    (hjm : jmLookup jm i = Option.some j) :
    runLoop env cfg runFlag tasks jm taskFuel (fuel + 1) iter i now st trace =
      runLoop env cfg runFlag tasks jm taskFuel fuel (iter + 1) (j + 1) now st trace := by
  rw [runLoop_succ, if_pos hi, if_pos hflag,
    if_neg (by rw [loopSkips_of_end env.oracle st _ hend]; exact Bool.false_ne_true),
    if_pos hend, if_pos hcont, hjm]

theorem runLoop_end_exit (env : ExecEnv) (cfg : EngineConfig) (runFlag : Nat → Bool)
    (tasks : List Task) (jm : List (Nat × Nat)) (taskFuel fuel iter i : Nat)
    (now : ℚ) (st : EngineState) (trace : List Nat)
    (hi : i < tasks.length)
    (hflag : runFlag iter = true)
    (hend : isEndTask (tasks.getD i {}) = true)
    (hcont : endLoopContinues env.oracle st (tasks.getD i {}) = false) :
    runLoop env cfg runFlag tasks jm taskFuel (fuel + 1) iter i now st trace =
      runLoop env cfg runFlag tasks jm taskFuel fuel (iter + 1) (i + 1) now st trace := by
  rw [runLoop_succ, if_pos hi, if_pos hflag,
    if_neg (by rw [loopSkips_of_end env.oracle st _ hend]; exact Bool.false_ne_true),
    if_pos hend, if_neg (by rw [hcont]; exact Bool.false_ne_true)]

theorem runLoop_completed (env : ExecEnv) (cfg : EngineConfig) (runFlag : Nat → Bool)
    (tasks : List Task) (jm : List (Nat × Nat)) (taskFuel fuel iter i : Nat)
    (now : ℚ) (st : EngineState) (trace : List Nat)
    (hi : ¬ i < tasks.length) :
    runLoop env cfg runFlag tasks jm taskFuel (fuel + 1) iter i now st trace =
      ⟨RunOutcome.completed, st, trace⟩ := by
  rw [runLoop_succ, if_neg hi]

/-- A first attempt that dispatches successfully (post-action included)
makes `_execute_task` return success with one invocation, the state the
attempt produced, and the clock unchanged. -/
theorem executeTask_attempt1_success (env : ExecEnv) (cfg : EngineConfig) (task : Task)
    (startTime : ℚ) (fuel : Nat) (st st1 : EngineState)
    (hrun : env.isRunning 1 = true)
    (hnb : task.wait_for_success = false)
    (hpre : (match task.pre_condition with
             | Option.some p => (evaluateExpression env.oracle st p).1
             | Option.none => true) = true)
    (hd : ¬ startTime - startTime > task.timeout.getD cfg.timeout)
    (hbody : tryDispatchPost env task 1 st = (st1, Except.ok (), 1)) :
    executeTask env cfg task startTime (fuel + 1) st =
      ⟨TaskOutcome.success, st1, 1, false, startTime⟩ := by
  unfold executeTask
  rw [hpre, if_pos rfl, if_neg (by rw [hnb]; exact Bool.false_ne_true)]
  have htb : tryBody env task (Option.some (task.timeout.getD cfg.timeout)) startTime
      (0 + 1) startTime st = (st1, Except.ok (), 1) := by
    unfold tryBody
    dsimp only
    rw [if_neg hd]
    exact hbody
  rw [execAttempts_succ, if_pos hrun, htb]

/-- C3: running `[LOOP(pre_condition="i<3"), body with post_action
`i = i + 1`, END_LOOP(pre_condition="i>=3")]` from `i = 0` completes, and
`_execute_task` ran the body task (index 1) exactly 3 times — the
execution trace is `[0, 1, 1, 1]`: the LOOP task itself once, then the
body on each of the three loop passes, with the END_LOOP jumping back
twice and exiting when `i>=3` first holds. -/
theorem loop_scenario_three_iterations :
    (runEngine scenEnv scenCfg (fun _ => true) scenarioTasks 1 20 (scenState 0)).outcome =
      RunOutcome.completed ∧
    ((runEngine scenEnv scenCfg (fun _ => true) scenarioTasks 1 20
        (scenState 0)).execTrace.count 1 = 3 ∧
      (runEngine scenEnv scenCfg (fun _ => true) scenarioTasks 1 20
        (scenState 0)).execTrace = [0, 1, 1, 1]) := by
  have hentry : runEngine scenEnv scenCfg (fun _ => true) scenarioTasks 1 20 (scenState 0) =
      runLoop scenEnv scenCfg (fun _ => true) scenarioTasks [(2, 0), (0, 2)] 1
        20 0 0 0 (scenState 0) [] := by
    unfold runEngine
    rw [show buildJumpMap scenarioTasks = Except.ok [(2, 0), (0, 2)] from rfl]
  have hexecL : executeTask scenEnv scenCfg loopTask 0 1 (scenState 0) =
      ⟨TaskOutcome.success, scenState 0, 1, false, 0⟩ :=
    executeTask_attempt1_success scenEnv scenCfg loopTask 0 0
      (scenState 0) (scenState 0) rfl rfl (by decide)
      (by norm_num [loopTask, scenCfg]) rfl
  have hexecB0 : executeTask scenEnv scenCfg bodyTask 0 1 (scenState 0) =
      ⟨TaskOutcome.success, scenState 1, 1, false, 0⟩ :=
    executeTask_attempt1_success scenEnv scenCfg bodyTask 0 0 (scenState 0) (scenState 1)
      rfl rfl rfl (by norm_num [bodyTask, scenCfg]) rfl
  have hexecB1 : executeTask scenEnv scenCfg bodyTask 0 1 (scenState 1) =
      ⟨TaskOutcome.success, scenState 2, 1, false, 0⟩ :=
    executeTask_attempt1_success scenEnv scenCfg bodyTask 0 0 (scenState 1) (scenState 2)
      rfl rfl rfl (by norm_num [bodyTask, scenCfg]) rfl
  have hexecB2 : executeTask scenEnv scenCfg bodyTask 0 1 (scenState 2) =
      ⟨TaskOutcome.success, scenState 3, 1, false, 0⟩ :=
    executeTask_attempt1_success scenEnv scenCfg bodyTask 0 0 (scenState 2) (scenState 3)
      rfl rfl rfl (by norm_num [bodyTask, scenCfg]) rfl
  have s1 : runLoop scenEnv scenCfg (fun _ => true) scenarioTasks [(2, 0), (0, 2)] 1
      20 0 0 0 (scenState 0) [] =
      runLoop scenEnv scenCfg (fun _ => true) scenarioTasks [(2, 0), (0, 2)] 1
        19 1 1 0 (scenState 0) [0] :=
    runLoop_exec_step scenEnv scenCfg (fun _ => true) scenarioTasks [(2, 0), (0, 2)] 1
      19 0 0 0 (scenState 0) [] (scenState 0) 0 1
      (by decide) rfl (by decide) (by decide) hexecL (by norm_num [scenCfg])
  have s2 : runLoop scenEnv scenCfg (fun _ => true) scenarioTasks [(2, 0), (0, 2)] 1
      19 1 1 0 (scenState 0) [0] =
      runLoop scenEnv scenCfg (fun _ => true) scenarioTasks [(2, 0), (0, 2)] 1
        18 2 2 0 (scenState 1) [0, 1] :=
    runLoop_exec_step scenEnv scenCfg (fun _ => true) scenarioTasks [(2, 0), (0, 2)] 1
      18 1 1 0 (scenState 0) [0] (scenState 1) 0 1
      (by decide) rfl (by decide) (by decide) hexecB0 (by norm_num [scenCfg])
  have s3 : runLoop scenEnv scenCfg (fun _ => true) scenarioTasks [(2, 0), (0, 2)] 1
      18 2 2 0 (scenState 1) [0, 1] =
      runLoop scenEnv scenCfg (fun _ => true) scenarioTasks [(2, 0), (0, 2)] 1
        17 3 1 0 (scenState 1) [0, 1] :=
    runLoop_end_continue scenEnv scenCfg (fun _ => true) scenarioTasks [(2, 0), (0, 2)] 1
      17 2 2 0 0 (scenState 1) [0, 1]
      (by decide) rfl (by decide) (by decide) rfl
  have s4 : runLoop scenEnv scenCfg (fun _ => true) scenarioTasks [(2, 0), (0, 2)] 1
      17 3 1 0 (scenState 1) [0, 1] =
      runLoop scenEnv scenCfg (fun _ => true) scenarioTasks [(2, 0), (0, 2)] 1
        16 4 2 0 (scenState 2) [0, 1, 1] :=
    runLoop_exec_step scenEnv scenCfg (fun _ => true) scenarioTasks [(2, 0), (0, 2)] 1
      16 3 1 0 (scenState 1) [0, 1] (scenState 2) 0 1
      (by decide) rfl (by decide) (by decide) hexecB1 (by norm_num [scenCfg])
  have s5 : runLoop scenEnv scenCfg (fun _ => true) scenarioTasks [(2, 0), (0, 2)] 1
      16 4 2 0 (scenState 2) [0, 1, 1] =
      runLoop scenEnv scenCfg (fun _ => true) scenarioTasks [(2, 0), (0, 2)] 1
        15 5 1 0 (scenState 2) [0, 1, 1] :=
    runLoop_end_continue scenEnv scenCfg (fun _ => true) scenarioTasks [(2, 0), (0, 2)] 1
      15 4 2 0 0 (scenState 2) [0, 1, 1]
      (by decide) rfl (by decide) (by decide) rfl
  have s6 : runLoop scenEnv scenCfg (fun _ => true) scenarioTasks [(2, 0), (0, 2)] 1
      15 5 1 0 (scenState 2) [0, 1, 1] =
      runLoop scenEnv scenCfg (fun _ => true) scenarioTasks [(2, 0), (0, 2)] 1
        14 6 2 0 (scenState 3) [0, 1, 1, 1] :=
    runLoop_exec_step scenEnv scenCfg (fun _ => true) scenarioTasks [(2, 0), (0, 2)] 1
      14 5 1 0 (scenState 2) [0, 1, 1] (scenState 3) 0 1
      (by decide) rfl (by decide) (by decide) hexecB2 (by norm_num [scenCfg])
  have s7 : runLoop scenEnv scenCfg (fun _ => true) scenarioTasks [(2, 0), (0, 2)] 1
      14 6 2 0 (scenState 3) [0, 1, 1, 1] =
      runLoop scenEnv scenCfg (fun _ => true) scenarioTasks [(2, 0), (0, 2)] 1
        13 7 3 0 (scenState 3) [0, 1, 1, 1] :=
    runLoop_end_exit scenEnv scenCfg (fun _ => true) scenarioTasks [(2, 0), (0, 2)] 1
      13 6 2 0 (scenState 3) [0, 1, 1, 1]
      (by decide) rfl (by decide) (by decide)
  have s8 : runLoop scenEnv scenCfg (fun _ => true) scenarioTasks [(2, 0), (0, 2)] 1
      13 7 3 0 (scenState 3) [0, 1, 1, 1] =
      ⟨RunOutcome.completed, scenState 3, [0, 1, 1, 1]⟩ :=
    runLoop_completed scenEnv scenCfg (fun _ => true) scenarioTasks [(2, 0), (0, 2)] 1
      12 7 3 0 (scenState 3) [0, 1, 1, 1] (by decide)
  rw [hentry, s1, s2, s3, s4, s5, s6, s7, s8]
  exact ⟨rfl, rfl, rfl⟩

end TaskEngine
